import Mathlib

/-!
Shallow embedding of the chat-message-service data-access layer
(src/app/services/chat_service.py and src/app/models/database.py).

The relational store is modelled as a pair of row lists (sessions,
messages).  A transaction is modelled by keeping two copies of the
store: `committed` (what a `commit` has persisted) and `current` (the
view of the open transaction, holding staged, not yet committed
changes).  `commit` promotes `current` to `committed`; `rollback`
resets `current` to `committed`.

Storage faults (SQLAlchemyError) are injected through a fault
schedule: a list of booleans consumed one per storage access (query,
commit, refresh); `true` means that access raises.  An exhausted
schedule means no further faults.  Raising is modelled by returning
`Except.error ()` for the operations that re-raise, and by the
documented fail-soft values for the ones that swallow the fault.

Every storage interaction is appended to an event trace so that the
rollback/retry discipline of the source is visible in the model.
-/

namespace ChatMessageService

/-- A row of the `chat_sessions` table (class `ChatSession` in
src/app/models/database.py).  UUIDs are modelled as naturals drawn
from a fresh-id counter; timestamps as naturals. -/
structure Session where
  id : Nat
  user_id : String
  title : String
  is_favorite : Bool
  has_documents : Bool
  created_at : Nat
  updated_at : Nat
deriving DecidableEq

/-- A row of the `chat_messages` table (class `ChatMessage`).
`context_metadata` is the serialized JSON text, kept opaque. -/
structure Message where
  id : Nat
  session_id : Nat
  sender : String
  content : String
  context_metadata : Option String
  created_at : Nat
deriving DecidableEq

/-- The relational store: the two tables in scope. -/
structure DB where
  sessions : List Session
  messages : List Message
deriving DecidableEq

/-- Storage-interaction events, for tracing the transaction discipline. -/
inductive Ev where
  | query
  | commitEv
  | rollbackEv
  | beginTx
  | refreshEv
deriving DecidableEq

/-- Payload of `SessionCreate` (src/app/models/schemas.py): `title`
defaults to "New Chat" at the schema boundary. -/
structure SessionCreate where
  user_id : String
  title : String := "New Chat"
deriving DecidableEq

/-- Payload of `SessionUpdate`: `title = some v` models a payload in
which `title` is explicitly set (pydantic `exclude_unset` semantics). -/
structure SessionUpdate where
  title : Option String
deriving DecidableEq

/-- Payload of `MessageCreate`; `context_metadata` is the serialized
text (`json.dumps` output) or absent. -/
structure MessageCreate where
  sender : String
  content : String
  context_metadata : Option String
deriving DecidableEq

/-- The full machine state threaded through the service calls:
committed store, open-transaction view, fault schedule, event trace,
and the fresh-id counter modelling server-side uuid generation. -/
structure St where
  committed : DB
  current : DB
  faults : List Bool
  events : List Ev
  nextId : Nat
deriving DecidableEq

/-- Does the next storage access raise? (head of the fault schedule). -/
def faultNow (fs : List Bool) : Bool :=
  fs.headD false

/-- Fault schedule after one storage access. -/
def afterFault (fs : List Bool) : List Bool :=
  fs.tail

/-- `db.query(ChatSession).filter(ChatSession.id == session_id).first()`. -/
def findSession (db : DB) (sid : Nat) : Option Session :=
  db.sessions.find? (fun s => decide (s.id = sid))

/-- `query.order_by(ChatMessage.created_at)`: sort ascending by `created_at`. -/
def sortMessagesAsc (l : List Message) : List Message :=
  l.mergeSort (fun a b => decide (a.created_at ≤ b.created_at))

/-- `order_by(ChatSession.created_at.desc())`: sort descending by `created_at`. -/
def sortSessionsDesc (l : List Session) : List Session :=
  l.mergeSort (fun a b => decide (b.created_at ≤ a.created_at))

/-- `ChatService.get_session`: one read; on SQLAlchemyError, rollback,
then one retry inside a fresh transaction (`db.begin()`); if the retry
also raises, return `None`.  Never propagates a storage fault. -/
def get_session (st : St) (sid : Nat) : Option Session × St :=
  let st1 : St := { st with
    faults := afterFault st.faults
    events := st.events ++ [Ev.query] }
  if faultNow st.faults then
    let st2 : St := { st1 with
      current := st1.committed
      events := st1.events ++ [Ev.rollbackEv] }
    let st3 : St := { st2 with
      faults := afterFault st2.faults
      events := st2.events ++ [Ev.beginTx, Ev.query] }
    if faultNow st2.faults then (none, st3)
    else (findSession st3.current sid, st3)
  else
    (findSession st1.current sid, st1)

/-- `ChatService.get_sessions`: filter by `user_id`, newest first; on a
storage fault, rollback and re-raise. -/
def get_sessions (st : St) (uid : String) : Except Unit (List Session) × St :=
  let st1 : St := { st with
    faults := afterFault st.faults
    events := st.events ++ [Ev.query] }
  if faultNow st.faults then
    (Except.error (), { st1 with
      current := st1.committed
      events := st1.events ++ [Ev.rollbackEv] })
  else
    (Except.ok (sortSessionsDesc (st1.current.sessions.filter (fun s => decide (s.user_id = uid)))),
     st1)

/-- `ChatService.create_session`: stage the new row (`db.add`), then
`db.commit()` and `db.refresh`; on a fault at either access, rollback
and re-raise.  The id and both timestamps are generated server-side;
`now` is the call's clock reading (`datetime.utcnow`). -/
def create_session (st : St) (d : SessionCreate) (now : Nat) : Except Unit Session × St :=
  let s : Session := { id := st.nextId, user_id := d.user_id, title := d.title,
                       is_favorite := false, has_documents := false,
                       created_at := now, updated_at := now }
  let st1 : St := { st with
    nextId := st.nextId + 1
    current := { st.current with sessions := st.current.sessions ++ [s] } }
  if faultNow st1.faults then
    (Except.error (), { st1 with
      faults := afterFault st1.faults
      events := st1.events ++ [Ev.commitEv, Ev.rollbackEv]
      current := st1.committed })
  else
    let st2 : St := { st1 with
      faults := afterFault st1.faults
      events := st1.events ++ [Ev.commitEv]
      committed := st1.current }
    if faultNow st2.faults then
      (Except.error (), { st2 with
        faults := afterFault st2.faults
        events := st2.events ++ [Ev.refreshEv, Ev.rollbackEv]
        current := st2.committed })
    else
      (Except.ok s, { st2 with
        faults := afterFault st2.faults
        events := st2.events ++ [Ev.refreshEv] })

/-- The `setattr` loop of `update_session` on one row, together with
the `onupdate` refresh of `updated_at` applied when the row is dirtied:
only fields present in the payload (`exclude_unset`) are applied. -/
def applySessionUpdate (u : SessionUpdate) (now : Nat) (s : Session) : Session :=
  match u.title with
  | none => s
  | some t => { s with title := t, updated_at := now }

/-- `ChatService.update_session`: existence read via `get_session`
(with its retry policy), partial update, `db.commit()`, `db.refresh`;
faults at commit/refresh rollback and re-raise. -/
def update_session (st : St) (sid : Nat) (u : SessionUpdate) (now : Nat) :
    Except Unit (Option Session) × St :=
  match get_session st sid with
  | (none, st1) => (Except.ok none, st1)
  | (some _, st1) =>
    let st2 : St := { st1 with
      current := { st1.current with
        sessions := st1.current.sessions.map
          (fun t => if t.id = sid then applySessionUpdate u now t else t) } }
    if faultNow st2.faults then
      (Except.error (), { st2 with
        faults := afterFault st2.faults
        events := st2.events ++ [Ev.commitEv, Ev.rollbackEv]
        current := st2.committed })
    else
      let st3 : St := { st2 with
        faults := afterFault st2.faults
        events := st2.events ++ [Ev.commitEv]
        committed := st2.current }
      if faultNow st3.faults then
        (Except.error (), { st3 with
          faults := afterFault st3.faults
          events := st3.events ++ [Ev.refreshEv, Ev.rollbackEv]
          current := st3.committed })
      else
        (Except.ok (findSession st3.committed sid), { st3 with
          faults := afterFault st3.faults
          events := st3.events ++ [Ev.refreshEv] })

/-- `ChatService.toggle_favorite`: existence read via `get_session`,
flip `is_favorite` (with `onupdate` bumping `updated_at`), commit,
refresh; faults at commit/refresh rollback and re-raise. -/
def toggle_favorite (st : St) (sid : Nat) (now : Nat) :
    Except Unit (Option Session) × St :=
  match get_session st sid with
  | (none, st1) => (Except.ok none, st1)
  | (some _, st1) =>
    let st2 : St := { st1 with
      current := { st1.current with
        sessions := st1.current.sessions.map
          (fun t => if t.id = sid then { t with is_favorite := !t.is_favorite, updated_at := now }
                    else t) } }
    if faultNow st2.faults then
      (Except.error (), { st2 with
        faults := afterFault st2.faults
        events := st2.events ++ [Ev.commitEv, Ev.rollbackEv]
        current := st2.committed })
    else
      let st3 : St := { st2 with
        faults := afterFault st2.faults
        events := st2.events ++ [Ev.commitEv]
        committed := st2.current }
      if faultNow st3.faults then
        (Except.error (), { st3 with
          faults := afterFault st3.faults
          events := st3.events ++ [Ev.refreshEv, Ev.rollbackEv]
          current := st3.committed })
      else
        (Except.ok (findSession st3.committed sid), { st3 with
          faults := afterFault st3.faults
          events := st3.events ++ [Ev.refreshEv] })

/-- `ChatService.delete_session`: existence read via `get_session`;
`db.delete(session)` stages removal of the row and, by the
`cascade="all, delete-orphan"` relationship, of all its messages;
`db.commit()` persists; on a commit fault, rollback and re-raise.
Returns `false` ("did not exist") when the read finds nothing. -/
def delete_session (st : St) (sid : Nat) : Except Unit Bool × St :=
  match get_session st sid with
  | (none, st1) => (Except.ok false, st1)
  | (some _, st1) =>
    let st2 : St := { st1 with
      current := {
        sessions := st1.current.sessions.filter (fun t => decide (¬ t.id = sid))
        messages := st1.current.messages.filter (fun m => decide (¬ m.session_id = sid)) } }
    if faultNow st2.faults then
      (Except.error (), { st2 with
        faults := afterFault st2.faults
        events := st2.events ++ [Ev.commitEv, Ev.rollbackEv]
        current := st2.committed })
    else
      (Except.ok true, { st2 with
        faults := afterFault st2.faults
        events := st2.events ++ [Ev.commitEv]
        committed := st2.current })

/-- `ChatService.add_message`: existence read via `get_session`;
returns `None` without writing when the session is not found.
Otherwise stages the new row (`sender` lowercased, metadata kept as
serialized text), commits, refreshes; faults at commit/refresh
rollback and re-raise. -/
def add_message (st : St) (sid : Nat) (d : MessageCreate) (now : Nat) :
    Except Unit (Option Message) × St :=
  match get_session st sid with
  | (none, st1) => (Except.ok none, st1)
  | (some _, st1) =>
    let m : Message := { id := st1.nextId, session_id := sid, sender := d.sender.toLower,
                         content := d.content, context_metadata := d.context_metadata,
                         created_at := now }
    let st2 : St := { st1 with
      nextId := st1.nextId + 1
      current := { st1.current with messages := st1.current.messages ++ [m] } }
    if faultNow st2.faults then
      (Except.error (), { st2 with
        faults := afterFault st2.faults
        events := st2.events ++ [Ev.commitEv, Ev.rollbackEv]
        current := st2.committed })
    else
      let st3 : St := { st2 with
        faults := afterFault st2.faults
        events := st2.events ++ [Ev.commitEv]
        committed := st2.current }
      if faultNow st3.faults then
        (Except.error (), { st3 with
          faults := afterFault st3.faults
          events := st3.events ++ [Ev.refreshEv, Ev.rollbackEv]
          current := st3.committed })
      else
        (Except.ok (some m), { st3 with
          faults := afterFault st3.faults
          events := st3.events ++ [Ev.refreshEv] })

/-- `ChatService.get_messages`: `query.count()` (first access), then
`order_by(created_at).offset(skip).limit(limit).all()` (second
access).  On a fault at either access: rollback and return the
fail-soft empty page `([], 0)`.  Never propagates a storage fault. -/
def get_messages (st : St) (sid skip limit : Nat) : (List Message × Nat) × St :=
  let st1 : St := { st with
    faults := afterFault st.faults
    events := st.events ++ [Ev.query] }
  if faultNow st.faults then
    (([], 0), { st1 with
      current := st1.committed
      events := st1.events ++ [Ev.rollbackEv] })
  else
    let msgs := st1.current.messages.filter (fun m => decide (m.session_id = sid))
    let total := msgs.length
    let st2 : St := { st1 with
      faults := afterFault st1.faults
      events := st1.events ++ [Ev.query] }
    if faultNow st1.faults then
      (([], 0), { st2 with
        current := st2.committed
        events := st2.events ++ [Ev.rollbackEv] })
    else
      ((((sortMessagesAsc msgs).drop skip).take limit, total), st2)

/-- The empty store: state at first use of a fresh database. -/
def initSt : St :=
  { committed := { sessions := [], messages := [] },
    current := { sessions := [], messages := [] },
    faults := [], events := [], nextId := 0 }

/-- One step of the system: any core operation with any arguments, or
the environment choosing a fresh fault schedule for the next call. -/
inductive Step : St → St → Prop where
  | createS (st : St) (d : SessionCreate) (now : Nat) : Step st (create_session st d now).2
  | listS (st : St) (uid : String) : Step st (get_sessions st uid).2
  | getS (st : St) (sid : Nat) : Step st (get_session st sid).2
  | updateS (st : St) (sid : Nat) (u : SessionUpdate) (now : Nat) :
      Step st (update_session st sid u now).2
  | toggleS (st : St) (sid : Nat) (now : Nat) : Step st (toggle_favorite st sid now).2
  | deleteS (st : St) (sid : Nat) : Step st (delete_session st sid).2
  | addM (st : St) (sid : Nat) (d : MessageCreate) (now : Nat) :
      Step st (add_message st sid d now).2
  | listM (st : St) (sid skip limit : Nat) : Step st (get_messages st sid skip limit).2
  | refault (st : St) (fs : List Bool) : Step st { st with faults := fs }

/-- States reachable from the empty store by core-operation calls. -/
inductive Reachable : St → Prop where
  | init : Reachable initSt
  | step {st st' : St} : Reachable st → Step st st' → Reachable st'

/-- Store health relative to the id counter: no orphan messages, all
ids below the counter, session ids pairwise distinct. -/
def GoodDB (db : DB) (n : Nat) : Prop :=
  (∀ m ∈ db.messages, ∃ s ∈ db.sessions, s.id = m.session_id) ∧
  (∀ s ∈ db.sessions, s.id < n) ∧
  (∀ m ∈ db.messages, m.id < n) ∧
  (db.sessions.map (fun s => s.id)).Nodup

/-- The state invariant: no transaction is left open across calls
(`current = committed`) and the committed store is healthy. -/
def Inv (st : St) : Prop :=
  st.current = st.committed ∧ GoodDB st.committed st.nextId

/-- Raising outcome with transaction discipline: the call returned the
storage-fault error, a rollback was the last storage event, and no
transaction is left open. -/
def RollbackRaise {α : Type} (out : Except Unit α × St) : Prop :=
  out.1 = Except.error () ∧
  (∃ pre, out.2.events = pre ++ [Ev.rollbackEv]) ∧
  out.2.current = out.2.committed

/-- A sample stored session, for instantiating the theorems. -/
def sampleSession : Session :=
  { id := 0, user_id := "u1", title := "Trip planning", is_favorite := false, has_documents := false, created_at := 1, updated_at := 1 }

/-- A sample stored message attached to `sampleSession`. -/
def sampleMessage : Message :=
  { id := 1, session_id := 0, sender := "user", content := "hello", context_metadata := none, created_at := 2 }

/-- A sample store holding the session and its message. -/
def sampleDB : DB :=
  { sessions := [sampleSession], messages := [sampleMessage] }

/-- A sample quiescent state over `sampleDB`. -/
def sampleSt : St :=
  { committed := sampleDB, current := sampleDB, faults := [], events := [], nextId := 2 }

/-- The state after creating one session in the empty store. -/
def createdSt : St :=
  (create_session initSt { user_id := "u1", title := "Trip planning" } 1).2

/-- The state after then adding one message to that session. -/
def messagedSt : St :=
  (add_message createdSt 0 { sender := "USER", content := "hello", context_metadata := none } 2).2

/-! ### Characterization of `get_session` -/

/-- Fault-free read: one query, the row (if any) from the open view. -/
lemma get_session_no_fault (st : St) (sid : Nat) (h : faultNow st.faults = false) :
    get_session st sid =
      (findSession st.current sid,
       { st with faults := afterFault st.faults, events := st.events ++ [Ev.query] }) := by
  simp [get_session, h]

/-- Faulting first read: rollback, fresh transaction, single retry. -/
lemma get_session_fault (st : St) (sid : Nat) (h : faultNow st.faults = true) :
    get_session st sid =
      ((if faultNow (afterFault st.faults) then none else findSession st.committed sid),
       { st with
           current := st.committed
           faults := afterFault (afterFault st.faults)
           events := st.events ++ [Ev.query, Ev.rollbackEv, Ev.beginTx, Ev.query] }) := by
  by_cases h2 : faultNow (afterFault st.faults) = true
  · simp [get_session, h, h2]
  · simp [get_session, h, h2]

/-- `get_session` never touches the committed store, the id counter,
or (beyond a rollback) the open view. -/
lemma get_session_frame (st : St) (sid : Nat) :
    (get_session st sid).2.committed = st.committed ∧
    (get_session st sid).2.nextId = st.nextId := by
  by_cases h : faultNow st.faults = true
  · rw [get_session_fault st sid h]; exact ⟨rfl, rfl⟩
  · rw [get_session_no_fault st sid (by simpa using h)]; exact ⟨rfl, rfl⟩

/-- A session returned by `get_session` is a stored row with the
requested id, taken from the post-call open view. -/
lemma get_session_found {st : St} {sid : Nat} {s : Session}
    (h : (get_session st sid).1 = some s) :
    s ∈ (get_session st sid).2.current.sessions ∧ s.id = sid := by
  by_cases hf : faultNow st.faults = true
  · rw [get_session_fault st sid hf] at h ⊢
    by_cases h2 : faultNow (afterFault st.faults) = true
    · simp [h2] at h
    · simp [h2] at h ⊢
      unfold findSession at h
      exact ⟨List.mem_of_find?_eq_some h, by simpa using List.find?_some h⟩
  · rw [get_session_no_fault st sid (by simpa using hf)] at h ⊢
    unfold findSession at h
    exact ⟨List.mem_of_find?_eq_some h, by simpa using List.find?_some h⟩

/-- Claim C1: if the first read of `Get(session_id)` raises a storage
fault, the operation rolls back the failed transaction (rollback event,
open view reset to the committed store), makes exactly one retry in a
fresh transaction (begin followed by exactly one further query), and
returns `none` if the retry faults, else the retry's own result. -/
theorem get_session_first_fault_retry (st : St) (sid : Nat) (rest : List Bool)
    (h : st.faults = true :: rest) :
    (get_session st sid).1 = (if faultNow rest then none else findSession st.committed sid) ∧
    (get_session st sid).2.events = st.events ++ [Ev.query, Ev.rollbackEv, Ev.beginTx, Ev.query] ∧
    (get_session st sid).2.current = st.committed := by
  have hf : faultNow st.faults = true := by simp [faultNow, h]
  rw [get_session_fault st sid hf]
  refine ⟨?_, rfl, rfl⟩
  simp [afterFault, h]

/-- Claim C10: when the internal existence read of a write operation
faults and its single retry faults too, the operation returns its
"not found" outcome (`none`, `false` for delete) instead of raising. -/
theorem write_ops_read_double_fault (st : St) (sid : Nat) (u : SessionUpdate)
    (d : MessageCreate) (now : Nat) (rest : List Bool)
    (h : st.faults = true :: true :: rest) :
    (update_session st sid u now).1 = Except.ok none ∧
    (toggle_favorite st sid now).1 = Except.ok none ∧
    (delete_session st sid).1 = Except.ok false ∧
    (add_message st sid d now).1 = Except.ok none := by
  have hg : (get_session st sid).1 = none := by
    rw [get_session_fault st sid (by simp [faultNow, h])]
    simp [afterFault, faultNow, h]
  rcases hp : get_session st sid with ⟨r, st1⟩
  rw [hp] at hg
  simp only at hg
  subst hg
  exact ⟨by simp [update_session, hp], by simp [toggle_favorite, hp],
         by simp [delete_session, hp], by simp [add_message, hp]⟩

/-- Claim C7: adding a message to a session id that is not stored
returns `none` and leaves the store (both the committed tables and the
open view) unchanged, under every fault schedule. -/
theorem add_message_missing_session (st : St) (sid : Nat) (d : MessageCreate) (now : Nat)
    (hcc : st.current = st.committed) (h : findSession st.committed sid = none) :
    (add_message st sid d now).1 = Except.ok none ∧
    (add_message st sid d now).2.committed = st.committed ∧
    (add_message st sid d now).2.current = st.committed := by
  by_cases hf : faultNow st.faults = true
  · have he := get_session_fault st sid hf
    by_cases h2 : faultNow (afterFault st.faults) = true
    · rw [if_pos h2] at he
      simp [add_message, he]
    · rw [if_neg h2, h] at he
      simp [add_message, he]
  · have he := get_session_no_fault st sid (by simpa using hf)
    rw [hcc, h] at he
    simp [add_message, he, hcc]

/-- Claim C3: a storage fault at either access of the message listing
(the count or the page query) yields the fail-soft empty page
`([], 0)`, after a rollback, and nothing is propagated (the operation
has no error outcome at all). -/
theorem get_messages_fail_soft (st : St) (sid skip limit : Nat)
    (h : faultNow st.faults = true ∨ faultNow (afterFault st.faults) = true) :
    (get_messages st sid skip limit).1 = ([], 0) ∧
    (get_messages st sid skip limit).2.events =
      st.events ++ (if faultNow st.faults then [Ev.query, Ev.rollbackEv]
                    else [Ev.query, Ev.query, Ev.rollbackEv]) ∧
    (get_messages st sid skip limit).2.current = st.committed := by
  by_cases h1 : faultNow st.faults = true
  · simp [get_messages, h1]
  · rcases h with h | h2
    · exact absurd h h1
    · simp [get_messages, h1, h2]

/-- Claim C5: without faults, the message page holds at most `limit`
rows and the reported total is the session's full message count,
whatever `skip` and `limit` are. -/
theorem get_messages_page_bound (st : St) (sid skip limit : Nat)
    (h1 : faultNow st.faults = false) (h2 : faultNow (afterFault st.faults) = false) :
    ((get_messages st sid skip limit).1.1).length ≤ limit ∧
    (get_messages st sid skip limit).1.2 =
      (st.current.messages.filter (fun m => decide (m.session_id = sid))).length := by
  constructor
  · simp [get_messages, h1, h2]
  · simp [get_messages, h1, h2]

/-- Claim C6: fault-free listings are ordered: sessions for a user are
exactly the matching rows, newest first (`created_at` descending); the
message page is `created_at` ascending and drawn from the given
session's messages. -/
theorem listing_orders (st : St) (uid : String) (sid skip limit : Nat)
    (h1 : faultNow st.faults = false) (h2 : faultNow (afterFault st.faults) = false) :
    (∃ l, (get_sessions st uid).1 = Except.ok l ∧
       l.Perm (st.current.sessions.filter (fun s => decide (s.user_id = uid))) ∧
       l.Pairwise (fun a b => b.created_at ≤ a.created_at)) ∧
    ((get_messages st sid skip limit).1.1).Pairwise (fun a b => a.created_at ≤ b.created_at) ∧
    (∀ m ∈ (get_messages st sid skip limit).1.1, m.session_id = sid) := by
  have hpage : (get_messages st sid skip limit).1.1 =
      ((sortMessagesAsc (st.current.messages.filter
          (fun m => decide (m.session_id = sid)))).drop skip).take limit := by
    simp [get_messages, h1, h2]
  have hsubl : (((sortMessagesAsc (st.current.messages.filter
          (fun m => decide (m.session_id = sid)))).drop skip).take limit).Sublist
        (sortMessagesAsc (st.current.messages.filter (fun m => decide (m.session_id = sid)))) :=
    (List.take_sublist _ _).trans (List.drop_sublist _ _)
  have hsortM := @List.sorted_mergeSort Message
      (fun a b : Message => decide (a.created_at ≤ b.created_at))
      (fun a b c hab hbc => by
        simp only [decide_eq_true_eq] at *
        exact le_trans hab hbc)
      (fun a b => by simp [Nat.le_total])
      (st.current.messages.filter (fun m => decide (m.session_id = sid)))
  refine ⟨⟨sortSessionsDesc (st.current.sessions.filter (fun s => decide (s.user_id = uid))),
          ?_, ?_, ?_⟩, ?_, ?_⟩
  · simp [get_sessions, h1]
  · exact List.mergeSort_perm _ _
  · have hsortS := @List.sorted_mergeSort Session
        (fun a b : Session => decide (b.created_at ≤ a.created_at))
        (fun a b c hab hbc => by
          simp only [decide_eq_true_eq] at *
          exact le_trans hbc hab)
        (fun a b => by simp [Nat.le_total])
        (st.current.sessions.filter (fun s => decide (s.user_id = uid)))
    exact hsortS.imp (fun hd => of_decide_eq_true hd)
  · rw [hpage]
    exact List.Pairwise.sublist hsubl (hsortM.imp (fun hd => of_decide_eq_true hd))
  · intro m hm
    rw [hpage] at hm
    have hm2 : m ∈ sortMessagesAsc (st.current.messages.filter
        (fun m => decide (m.session_id = sid))) := hsubl.mem hm
    have hm3 : m ∈ st.current.messages.filter (fun m => decide (m.session_id = sid)) :=
      (List.mergeSort_perm _ _).mem_iff.mp hm2
    simpa using (List.of_mem_filter hm3)

/-- Updating rows in place commutes with looking a row up by id, when
the update preserves ids. -/
lemma find?_map_update (l : List Session) (sid : Nat) (g : Session → Session)
    (hg : ∀ t, (g t).id = t.id) :
    (l.map (fun t => if t.id = sid then g t else t)).find? (fun s => decide (s.id = sid)) =
      (l.find? (fun s => decide (s.id = sid))).map (fun t => if t.id = sid then g t else t) := by
  have hp : ((fun s => decide (s.id = sid)) ∘ fun t => if t.id = sid then g t else t)
      = (fun s : Session => decide (s.id = sid)) := by
    funext t
    by_cases h : t.id = sid <;> simp [Function.comp, h, hg]
  rw [List.find?_map, hp]

/-- Fault-free `toggle_favorite` on a stored session: flips the flag
of that row (bumping `updated_at`), commits, and returns the row. -/
lemma toggle_favorite_no_fault (st : St) (sid : Nat) (now : Nat) (s : Session)
    (hcc : st.current = st.committed) (hf : st.faults = [])
    (hfind : findSession st.committed sid = some s) :
    (toggle_favorite st sid now).1 =
      Except.ok (some { s with is_favorite := !s.is_favorite, updated_at := now }) ∧
    (toggle_favorite st sid now).2.committed.sessions =
      st.committed.sessions.map
        (fun t => if t.id = sid then { t with is_favorite := !t.is_favorite, updated_at := now }
                  else t) ∧
    (toggle_favorite st sid now).2.committed.messages = st.committed.messages ∧
    (toggle_favorite st sid now).2.current = (toggle_favorite st sid now).2.committed ∧
    (toggle_favorite st sid now).2.faults = [] := by
  have hfnow : faultNow st.faults = false := by simp [faultNow, hf]
  have he := get_session_no_fault st sid hfnow
  rw [hcc, hfind] at he
  have hsid : s.id = sid := by simpa using List.find?_some hfind
  have hfind2 : st.committed.sessions.find? (fun s => decide (s.id = sid)) = some s := hfind
  have hmap := find?_map_update st.committed.sessions sid
      (fun t => { t with is_favorite := !t.is_favorite, updated_at := now }) (fun t => rfl)
  rw [hfind2] at hmap
  simp [toggle_favorite, he, hcc, hf, faultNow, afterFault, findSession, hmap, hsid]

/-- Claim C8: toggling the favorite flag of a stored session twice
returns a session with the original `is_favorite` value: the second
result is `s` with only `updated_at` changed, so its `is_favorite` is
literally `s.is_favorite`. -/
theorem toggle_favorite_involution (st : St) (sid now1 now2 : Nat) (s : Session)
    (hcc : st.current = st.committed) (hf : st.faults = [])
    (hfind : findSession st.committed sid = some s) :
    (toggle_favorite st sid now1).1 =
      Except.ok (some { s with is_favorite := !s.is_favorite, updated_at := now1 }) ∧
    (toggle_favorite (toggle_favorite st sid now1).2 sid now2).1 =
      Except.ok (some { s with updated_at := now2 }) := by
  have hsid : s.id = sid := by simpa using List.find?_some hfind
  obtain ⟨h1, hsess, _, hcc1, hf1⟩ := toggle_favorite_no_fault st sid now1 s hcc hf hfind
  refine ⟨h1, ?_⟩
  have hfind2 : st.committed.sessions.find? (fun s => decide (s.id = sid)) = some s := hfind
  have hmap := find?_map_update st.committed.sessions sid
      (fun t => { t with is_favorite := !t.is_favorite, updated_at := now1 }) (fun t => rfl)
  rw [hfind2] at hmap
  have hfind1 : findSession (toggle_favorite st sid now1).2.committed sid =
      some { s with is_favorite := !s.is_favorite, updated_at := now1 } := by
    unfold findSession
    rw [hsess, hmap]
    simp [hsid]
  obtain ⟨h2, _, _, _, _⟩ := toggle_favorite_no_fault (toggle_favorite st sid now1).2 sid now2
      { s with is_favorite := !s.is_favorite, updated_at := now1 } hcc1 hf1 hfind1
  rw [h2]
  simp

/-! ### Preservation of store health -/

lemma goodDB_mono {db : DB} {n n2 : Nat} (h : GoodDB db n) (hle : n ≤ n2) : GoodDB db n2 := by
  obtain ⟨h1, h2, h3, h4⟩ := h
  exact ⟨h1, fun s hs => lt_of_lt_of_le (h2 s hs) hle,
         fun m hm => lt_of_lt_of_le (h3 m hm) hle, h4⟩

lemma goodDB_insert_session {db : DB} {n : Nat} {s : Session} (h : GoodDB db n)
    (hid : s.id = n) :
    GoodDB { db with sessions := db.sessions ++ [s] } (n + 1) := by
  obtain ⟨h1, h2, h3, h4⟩ := h
  refine ⟨?_, ?_, ?_, ?_⟩
  · intro m hm
    obtain ⟨t, ht, he⟩ := h1 m hm
    exact ⟨t, List.mem_append_left _ ht, he⟩
  · intro t ht
    rcases List.mem_append.mp ht with ht | ht
    · exact lt_trans (h2 t ht) (Nat.lt_succ_self n)
    · simp at ht
      subst ht
      omega
  · intro m hm
    exact lt_trans (h3 m hm) (Nat.lt_succ_self n)
  · rw [List.map_append, List.nodup_append]
    refine ⟨h4, by simp, ?_⟩
    intro x hx hx2
    obtain ⟨t, ht, rfl⟩ := List.mem_map.mp hx
    simp [hid] at hx2
    have := h2 t ht
    omega

lemma goodDB_insert_message {db : DB} {n : Nat} {m : Message} (h : GoodDB db n)
    (hid : m.id = n) (href : ∃ s ∈ db.sessions, s.id = m.session_id) :
    GoodDB { db with messages := db.messages ++ [m] } (n + 1) := by
  obtain ⟨h1, h2, h3, h4⟩ := h
  refine ⟨?_, ?_, ?_, h4⟩
  · intro x hx
    rcases List.mem_append.mp hx with hx | hx
    · exact h1 x hx
    · simp at hx
      subst hx
      exact href
  · intro t ht
    exact lt_trans (h2 t ht) (Nat.lt_succ_self n)
  · intro x hx
    rcases List.mem_append.mp hx with hx | hx
    · exact lt_trans (h3 x hx) (Nat.lt_succ_self n)
    · simp at hx
      subst hx
      omega

lemma goodDB_map_sessions {db : DB} {n : Nat} {g : Session → Session}
    (hg : ∀ t, (g t).id = t.id) (h : GoodDB db n) :
    GoodDB { db with sessions := db.sessions.map g } n := by
  obtain ⟨h1, h2, h3, h4⟩ := h
  refine ⟨?_, ?_, h3, ?_⟩
  · intro m hm
    obtain ⟨t, ht, he⟩ := h1 m hm
    exact ⟨g t, List.mem_map_of_mem g ht, by rw [hg]; exact he⟩
  · intro t ht
    obtain ⟨u, hu, rfl⟩ := List.mem_map.mp ht
    rw [hg]
    exact h2 u hu
  · rw [List.map_map]
    have hco : ((fun s : Session => s.id) ∘ g) = fun s : Session => s.id := by
      funext t
      exact hg t
    rw [hco]
    exact h4

lemma goodDB_delete (db : DB) (n sid : Nat) (h : GoodDB db n) :
    GoodDB { sessions := db.sessions.filter (fun t => decide (¬ t.id = sid)),
             messages := db.messages.filter (fun m => decide (¬ m.session_id = sid)) } n := by
  obtain ⟨h1, h2, h3, h4⟩ := h
  refine ⟨?_, ?_, ?_, ?_⟩
  · intro m hm
    have hm1 := List.mem_of_mem_filter hm
    have hm2 : ¬ m.session_id = sid := by simpa using List.of_mem_filter hm
    obtain ⟨t, ht, he⟩ := h1 m hm1
    refine ⟨t, List.mem_filter.mpr ⟨ht, by simp [he]; exact fun hc => hm2 (he ▸ hc)⟩, he⟩
  · intro t ht
    exact h2 t (List.mem_of_mem_filter ht)
  · intro m hm
    exact h3 m (List.mem_of_mem_filter hm)
  · exact List.Nodup.sublist ((List.filter_sublist _).map _) h4

lemma inv_get_session (st : St) (sid : Nat) (h : Inv st) : Inv (get_session st sid).2 := by
  obtain ⟨hcc, hg⟩ := h
  by_cases hf : faultNow st.faults = true
  · rw [get_session_fault st sid hf]
    exact ⟨rfl, hg⟩
  · rw [get_session_no_fault st sid (by simpa using hf)]
    exact ⟨hcc, hg⟩

lemma inv_get_sessions (st : St) (uid : String) (h : Inv st) : Inv (get_sessions st uid).2 := by
  obtain ⟨hcc, hg⟩ := h
  by_cases hf : faultNow st.faults = true
  · simp only [get_sessions, hf, if_true]
    exact ⟨rfl, hg⟩
  · simp only [get_sessions, hf, Bool.false_eq_true, if_false]
    exact ⟨hcc, hg⟩

lemma inv_get_messages (st : St) (sid skip limit : Nat) (h : Inv st) :
    Inv (get_messages st sid skip limit).2 := by
  obtain ⟨hcc, hg⟩ := h
  by_cases h1 : faultNow st.faults = true
  · simp only [get_messages, h1, if_true]
    exact ⟨rfl, hg⟩
  · by_cases h2 : faultNow (afterFault st.faults) = true
    · simp only [get_messages, h1, h2, Bool.false_eq_true, if_false, if_true]
      exact ⟨rfl, hg⟩
    · simp only [get_messages, h1, h2, Bool.false_eq_true, if_false]
      exact ⟨hcc, hg⟩

lemma inv_create (st : St) (d : SessionCreate) (now : Nat) (h : Inv st) :
    Inv (create_session st d now).2 := by
  obtain ⟨hcc, hg⟩ := h
  have hins := goodDB_insert_session (s := { id := st.nextId, user_id := d.user_id, title := d.title, is_favorite := false, has_documents := false, created_at := now, updated_at := now }) hg rfl
  by_cases h1 : faultNow st.faults = true
  · simp only [create_session, h1, if_true]
    exact ⟨rfl, goodDB_mono hg (Nat.le_succ _)⟩
  · by_cases h2 : faultNow (afterFault st.faults) = true
    · simp only [create_session, h1, h2, Bool.false_eq_true, if_false, if_true]
      refine ⟨rfl, ?_⟩
      rw [hcc]
      exact hins
    · simp only [create_session, h1, h2, Bool.false_eq_true, if_false]
      refine ⟨rfl, ?_⟩
      rw [hcc]
      exact hins

lemma inv_update (st : St) (sid : Nat) (u : SessionUpdate) (now : Nat) (h : Inv st) :
    Inv (update_session st sid u now).2 := by
  have h1 := inv_get_session st sid h
  rcases hp : get_session st sid with ⟨r, st1⟩
  rw [hp] at h1
  obtain ⟨hcc1, hg1⟩ := h1
  cases r with
  | none =>
    simp only [update_session, hp]
    exact ⟨hcc1, hg1⟩
  | some s =>
    have hpres : ∀ t : Session,
        ((fun t => if t.id = sid then applySessionUpdate u now t else t) t).id = t.id := by
      intro t
      by_cases ht : t.id = sid
      · cases hu : u.title <;> simp [ht, applySessionUpdate, hu]
      · simp [ht]
    have hmap := goodDB_map_sessions hpres hg1
    simp only [update_session, hp]
    by_cases h2 : faultNow st1.faults = true
    · simp only [h2, if_true]
      exact ⟨rfl, hg1⟩
    · by_cases h3 : faultNow (afterFault st1.faults) = true
      · simp only [h2, h3, Bool.false_eq_true, if_false, if_true]
        refine ⟨rfl, ?_⟩
        rw [hcc1]
        exact hmap
      · simp only [h2, h3, Bool.false_eq_true, if_false]
        refine ⟨rfl, ?_⟩
        rw [hcc1]
        exact hmap

lemma inv_toggle (st : St) (sid : Nat) (now : Nat) (h : Inv st) :
    Inv (toggle_favorite st sid now).2 := by
  have h1 := inv_get_session st sid h
  rcases hp : get_session st sid with ⟨r, st1⟩
  rw [hp] at h1
  obtain ⟨hcc1, hg1⟩ := h1
  cases r with
  | none =>
    simp only [toggle_favorite, hp]
    exact ⟨hcc1, hg1⟩
  | some s =>
    have hpres : ∀ t : Session,
        ((fun t => if t.id = sid then { t with is_favorite := !t.is_favorite, updated_at := now } else t) t).id = t.id := by
      intro t
      by_cases ht : t.id = sid <;> simp [ht]
    have hmap := goodDB_map_sessions hpres hg1
    simp only [toggle_favorite, hp]
    by_cases h2 : faultNow st1.faults = true
    · simp only [h2, if_true]
      exact ⟨rfl, hg1⟩
    · by_cases h3 : faultNow (afterFault st1.faults) = true
      · simp only [h2, h3, Bool.false_eq_true, if_false, if_true]
        refine ⟨rfl, ?_⟩
        rw [hcc1]
        exact hmap
      · simp only [h2, h3, Bool.false_eq_true, if_false]
        refine ⟨rfl, ?_⟩
        rw [hcc1]
        exact hmap

lemma inv_delete (st : St) (sid : Nat) (h : Inv st) : Inv (delete_session st sid).2 := by
  have h1 := inv_get_session st sid h
  rcases hp : get_session st sid with ⟨r, st1⟩
  rw [hp] at h1
  obtain ⟨hcc1, hg1⟩ := h1
  cases r with
  | none =>
    simp only [delete_session, hp]
    exact ⟨hcc1, hg1⟩
  | some s =>
    have hdel := goodDB_delete st1.committed st1.nextId sid hg1
    simp only [delete_session, hp]
    by_cases h2 : faultNow st1.faults = true
    · simp only [h2, if_true]
      exact ⟨rfl, hg1⟩
    · simp only [h2, Bool.false_eq_true, if_false]
      refine ⟨rfl, ?_⟩
      rw [hcc1]
      exact hdel

lemma inv_add (st : St) (sid : Nat) (d : MessageCreate) (now : Nat) (h : Inv st) :
    Inv (add_message st sid d now).2 := by
  have h1 := inv_get_session st sid h
  rcases hp : get_session st sid with ⟨r, st1⟩
  rw [hp] at h1
  obtain ⟨hcc1, hg1⟩ := h1
  cases r with
  | none =>
    simp only [add_message, hp]
    exact ⟨hcc1, hg1⟩
  | some s =>
    have hs : s ∈ st1.current.sessions ∧ s.id = sid := by
      have hfs := @get_session_found st sid s (by rw [hp])
      rwa [hp] at hfs
    have hins := goodDB_insert_message (m := { id := st1.nextId, session_id := sid, sender := d.sender.toLower, content := d.content, context_metadata := d.context_metadata, created_at := now }) hg1 rfl (by rw [← hcc1]; exact ⟨s, hs.1, hs.2⟩)
    simp only [add_message, hp]
    by_cases h2 : faultNow st1.faults = true
    · simp only [h2, if_true]
      exact ⟨rfl, goodDB_mono hg1 (Nat.le_succ _)⟩
    · by_cases h3 : faultNow (afterFault st1.faults) = true
      · simp only [h2, h3, Bool.false_eq_true, if_false, if_true]
        refine ⟨rfl, ?_⟩
        rw [hcc1]
        exact hins
      · simp only [h2, h3, Bool.false_eq_true, if_false]
        refine ⟨rfl, ?_⟩
        rw [hcc1]
        exact hins

/-- Every reachable state keeps the transaction discipline and the
store health: no open transaction between calls, no orphan messages,
all ids below the fresh-id counter, distinct session ids. -/
lemma reachable_inv {st : St} (h : Reachable st) : Inv st := by
  induction h with
  | init =>
    exact ⟨rfl, by simp [GoodDB, initSt]⟩
  | step hr hstep ih =>
    cases hstep with
    | createS d now => exact inv_create _ d now ih
    | listS uid => exact inv_get_sessions _ uid ih
    | getS sid => exact inv_get_session _ sid ih
    | updateS sid u now => exact inv_update _ sid u now ih
    | toggleS sid now => exact inv_toggle _ sid now ih
    | deleteS sid => exact inv_delete _ sid ih
    | addM sid d now => exact inv_add _ sid d now ih
    | listM sid skip limit => exact inv_get_messages _ sid skip limit ih
    | refault fs => exact ⟨ih.1, ih.2⟩

/-- Claim C2: in every reachable state, every stored message
references a stored session; a message is only ever inserted under a
session id stored at insert time; and a successful delete leaves no
message of the deleted session behind. -/
theorem message_referential_integrity (st : St) (h : Reachable st) :
    (∀ m ∈ st.committed.messages, ∃ s ∈ st.committed.sessions, s.id = m.session_id) ∧
    (∀ sid d now m, (add_message st sid d now).1 = Except.ok (some m) →
       m.session_id = sid ∧ ∃ s ∈ st.committed.sessions, s.id = sid) ∧
    (∀ sid, (delete_session st sid).1 = Except.ok true →
       ∀ m ∈ (delete_session st sid).2.committed.messages, ¬ m.session_id = sid) := by
  obtain ⟨hcc, hg⟩ := reachable_inv h
  refine ⟨hg.1, ?_, ?_⟩
  · intro sid d now m hok
    rcases hp : get_session st sid with ⟨r, st1⟩
    cases r with
    | none => simp [add_message, hp] at hok
    | some s =>
      have hs : s ∈ st1.current.sessions ∧ s.id = sid := by
        have hfs := @get_session_found st sid s (by rw [hp])
        rwa [hp] at hfs
      have h1 := inv_get_session st sid ⟨hcc, hg⟩
      rw [hp] at h1
      have hfr := get_session_frame st sid
      rw [hp] at hfr
      have hmem : s ∈ st.committed.sessions := by
        rw [← hfr.1, ← h1.1]
        exact hs.1
      refine ⟨?_, ⟨s, hmem, hs.2⟩⟩
      by_cases h2 : faultNow st1.faults = true
      · simp [add_message, hp, h2] at hok
      · by_cases h3 : faultNow (afterFault st1.faults) = true
        · simp [add_message, hp, h2, h3] at hok
        · simp only [add_message, hp, h2, h3, Bool.false_eq_true, if_false] at hok
          rw [Except.ok.injEq, Option.some.injEq] at hok
          subst hok
          rfl
  · intro sid hok m hm
    rcases hp : get_session st sid with ⟨r, st1⟩
    cases r with
    | none => simp [delete_session, hp] at hok
    | some s =>
      by_cases h2 : faultNow st1.faults = true
      · simp [delete_session, hp, h2] at hok
      · simp only [delete_session, hp, h2, Bool.false_eq_true, if_false] at hm
        simpa using List.of_mem_filter hm

/-- Claim C9: a session returned by a successful create has its two
timestamps equal, an id distinct from every previously stored session,
and the stored session ids stay pairwise distinct. -/
theorem create_session_fresh_id (st : St) (h : Reachable st) (d : SessionCreate) (now : Nat)
    (s : Session) (hok : (create_session st d now).1 = Except.ok s) :
    s.created_at = s.updated_at ∧
    (∀ t ∈ st.committed.sessions, ¬ t.id = s.id) ∧
    ((create_session st d now).2.committed.sessions.map (fun t => t.id)).Nodup := by
  obtain ⟨hcc, hg⟩ := reachable_inv h
  by_cases h1 : faultNow st.faults = true
  · simp [create_session, h1] at hok
  · by_cases h2 : faultNow (afterFault st.faults) = true
    · simp [create_session, h1, h2] at hok
    · simp only [create_session, h1, h2, Bool.false_eq_true, if_false] at hok ⊢
      rw [Except.ok.injEq] at hok
      subst hok
      refine ⟨rfl, ?_, ?_⟩
      · intro t ht hc
        have hb := hg.2.1 t ht
        simp only at hc
        omega
      · rw [hcc]
        exact (goodDB_insert_session (s := { id := st.nextId, user_id := d.user_id, title := d.title, is_favorite := false, has_documents := false, created_at := now, updated_at := now }) hg rfl).2.2.2

/-- Claim C4 counterexample: with the session stored and the fault
schedule making both reads of the internal existence check raise,
`update_session` returns the "not found" value `Except.ok none` — the
storage fault is not propagated, although faults were raised (the
trace shows both attempted reads). -/
theorem update_session_fault_swallowed_cex :
    ({ sampleSt with faults := [true, true] } : St).faults = [true, true] ∧
    findSession sampleSt.committed 0 = some sampleSession ∧
    (update_session { sampleSt with faults := [true, true] } 0 { title := some "X" } 7).1
      = Except.ok none ∧
    (update_session { sampleSt with faults := [true, true] } 0 { title := some "X" } 7).2.events
      = [Ev.query, Ev.rollbackEv, Ev.beginTx, Ev.query] := by
  exact ⟨rfl, rfl, rfl, rfl⟩

/-- Claim C4 (amended): whenever a storage fault reaches a write
operation's own handler — any access of `create_session`, and the
commit/refresh write path of `update_session`, `toggle_favorite`,
`delete_session`, `add_message` (faults confined to the internal
existence read are swallowed by its retry policy) — the operation
rolls back the offending transaction and propagates the fault. -/
theorem write_fault_rollback_then_propagate :
    (∀ (st : St) (d : SessionCreate) (now : Nat),
       faultNow st.faults = true ∨ faultNow (afterFault st.faults) = true →
       RollbackRaise (create_session st d now)) ∧
    (∀ (st : St) (sid : Nat) (u : SessionUpdate) (now : Nat) (cf rf : Bool) (rest : List Bool),
       st.faults = false :: cf :: rf :: rest → (findSession st.current sid).isSome →
       (cf || rf) = true →
       RollbackRaise (update_session st sid u now)) ∧
    (∀ (st : St) (sid now : Nat) (cf rf : Bool) (rest : List Bool),
       st.faults = false :: cf :: rf :: rest → (findSession st.current sid).isSome →
       (cf || rf) = true →
       RollbackRaise (toggle_favorite st sid now)) ∧
    (∀ (st : St) (sid : Nat) (rest : List Bool),
       st.faults = false :: true :: rest → (findSession st.current sid).isSome →
       RollbackRaise (delete_session st sid)) ∧
    (∀ (st : St) (sid : Nat) (d : MessageCreate) (now : Nat) (cf rf : Bool) (rest : List Bool),
       st.faults = false :: cf :: rf :: rest → (findSession st.current sid).isSome →
       (cf || rf) = true →
       RollbackRaise (add_message st sid d now)) := by
  refine ⟨?_, ?_, ?_, ?_, ?_⟩
  · intro st d now h
    by_cases h1 : faultNow st.faults = true
    · exact ⟨by simp [create_session, h1], ⟨st.events ++ [Ev.commitEv], by simp [create_session, h1]⟩, by simp [create_session, h1]⟩
    · have h2 : faultNow (afterFault st.faults) = true := by
        rcases h with h | h
        · exact absurd h h1
        · exact h
      exact ⟨by simp [create_session, h1, h2], ⟨st.events ++ [Ev.commitEv, Ev.refreshEv], by simp [create_session, h1, h2]⟩, by simp [create_session, h1, h2]⟩
  · intro st sid u now cf rf rest hfs hsome hor
    have hf1 : faultNow st.faults = false := by simp [faultNow, hfs]
    have he := get_session_no_fault st sid hf1
    obtain ⟨s, hs⟩ := Option.isSome_iff_exists.mp hsome
    rw [hs] at he
    cases cf with
    | true =>
      exact ⟨by simp [update_session, he, faultNow, afterFault, hfs],
             ⟨st.events ++ [Ev.query, Ev.commitEv], by simp [update_session, he, faultNow, afterFault, hfs]⟩,
             by simp [update_session, he, faultNow, afterFault, hfs]⟩
    | false =>
      have hrf : rf = true := by simpa using hor
      subst hrf
      exact ⟨by simp [update_session, he, faultNow, afterFault, hfs],
             ⟨st.events ++ [Ev.query, Ev.commitEv, Ev.refreshEv], by simp [update_session, he, faultNow, afterFault, hfs]⟩,
             by simp [update_session, he, faultNow, afterFault, hfs]⟩
  · intro st sid now cf rf rest hfs hsome hor
    have hf1 : faultNow st.faults = false := by simp [faultNow, hfs]
    have he := get_session_no_fault st sid hf1
    obtain ⟨s, hs⟩ := Option.isSome_iff_exists.mp hsome
    rw [hs] at he
    cases cf with
    | true =>
      exact ⟨by simp [toggle_favorite, he, faultNow, afterFault, hfs],
             ⟨st.events ++ [Ev.query, Ev.commitEv], by simp [toggle_favorite, he, faultNow, afterFault, hfs]⟩,
             by simp [toggle_favorite, he, faultNow, afterFault, hfs]⟩
    | false =>
      have hrf : rf = true := by simpa using hor
      subst hrf
      exact ⟨by simp [toggle_favorite, he, faultNow, afterFault, hfs],
             ⟨st.events ++ [Ev.query, Ev.commitEv, Ev.refreshEv], by simp [toggle_favorite, he, faultNow, afterFault, hfs]⟩,
             by simp [toggle_favorite, he, faultNow, afterFault, hfs]⟩
  · intro st sid rest hfs hsome
    have hf1 : faultNow st.faults = false := by simp [faultNow, hfs]
    have he := get_session_no_fault st sid hf1
    obtain ⟨s, hs⟩ := Option.isSome_iff_exists.mp hsome
    rw [hs] at he
    exact ⟨by simp [delete_session, he, faultNow, afterFault, hfs],
           ⟨st.events ++ [Ev.query, Ev.commitEv], by simp [delete_session, he, faultNow, afterFault, hfs]⟩,
           by simp [delete_session, he, faultNow, afterFault, hfs]⟩
  · intro st sid d now cf rf rest hfs hsome hor
    have hf1 : faultNow st.faults = false := by simp [faultNow, hfs]
    have he := get_session_no_fault st sid hf1
    obtain ⟨s, hs⟩ := Option.isSome_iff_exists.mp hsome
    rw [hs] at he
    cases cf with
    | true =>
      exact ⟨by simp [add_message, he, faultNow, afterFault, hfs],
             ⟨st.events ++ [Ev.query, Ev.commitEv], by simp [add_message, he, faultNow, afterFault, hfs]⟩,
             by simp [add_message, he, faultNow, afterFault, hfs]⟩
    | false =>
      have hrf : rf = true := by simpa using hor
      subst hrf
      exact ⟨by simp [add_message, he, faultNow, afterFault, hfs],
             ⟨st.events ++ [Ev.query, Ev.commitEv, Ev.refreshEv], by simp [add_message, he, faultNow, afterFault, hfs]⟩,
             by simp [add_message, he, faultNow, afterFault, hfs]⟩

/-! ### Concrete instantiations -/

lemma reachable_createdSt : Reachable createdSt :=
  Reachable.step Reachable.init (Step.createS initSt { user_id := "u1", title := "Trip planning" } 1)

lemma reachable_messagedSt : Reachable messagedSt :=
  Reachable.step reachable_createdSt
    (Step.addM createdSt 0 { sender := "USER", content := "hello", context_metadata := none } 2)

/-- Witness for claim C1 at a concrete double-faulting state. -/
theorem get_session_first_fault_retry_witness :
    (get_session { sampleSt with faults := [true, true] } 0).1 = none ∧
    (get_session { sampleSt with faults := [true, true] } 0).2.events
      = [Ev.query, Ev.rollbackEv, Ev.beginTx, Ev.query] ∧
    (get_session { sampleSt with faults := [true, true] } 0).2.current = sampleDB := by
  have h := get_session_first_fault_retry { sampleSt with faults := [true, true] } 0 [true] rfl
  exact ⟨by rw [h.1]; rfl, by rw [h.2.1]; rfl, by rw [h.2.2]; rfl⟩

/-- Witness for claim C2 at a concrete reachable state with one
session and one message. -/
theorem message_referential_integrity_witness :
    (∀ m ∈ messagedSt.committed.messages,
       ∃ s ∈ messagedSt.committed.sessions, s.id = m.session_id) ∧
    (∀ sid d now m, (add_message messagedSt sid d now).1 = Except.ok (some m) →
       m.session_id = sid ∧ ∃ s ∈ messagedSt.committed.sessions, s.id = sid) ∧
    (∀ sid, (delete_session messagedSt sid).1 = Except.ok true →
       ∀ m ∈ (delete_session messagedSt sid).2.committed.messages, ¬ m.session_id = sid) :=
  message_referential_integrity messagedSt reachable_messagedSt

/-- Witness for claim C3 at a concrete faulting state. -/
theorem get_messages_fail_soft_witness :
    (get_messages { sampleSt with faults := [true] } 0 0 50).1 = ([], 0) ∧
    (get_messages { sampleSt with faults := [true] } 0 0 50).2.current = sampleDB := by
  have h := get_messages_fail_soft { sampleSt with faults := [true] } 0 0 50 (Or.inl rfl)
  exact ⟨h.1, by rw [h.2.2]; rfl⟩

/-- Witness for the amended claim C4 at concrete faulting states. -/
theorem write_fault_rollback_then_propagate_witness :
    RollbackRaise (create_session { sampleSt with faults := [true] } { user_id := "u9", title := "T" } 9) ∧
    RollbackRaise (update_session { sampleSt with faults := [false, true, false] } 0 { title := some "Y" } 9) ∧
    RollbackRaise (toggle_favorite { sampleSt with faults := [false, true, false] } 0 9) ∧
    RollbackRaise (delete_session { sampleSt with faults := [false, true] } 0) ∧
    RollbackRaise (add_message { sampleSt with faults := [false, true, false] } 0 { sender := "user", content := "x", context_metadata := none } 9) := by
  have h := write_fault_rollback_then_propagate
  exact ⟨h.1 _ _ 9 (Or.inl rfl),
         h.2.1 _ 0 _ 9 true false [] rfl rfl rfl,
         h.2.2.1 _ 0 9 true false [] rfl rfl rfl,
         h.2.2.2.1 _ 0 [] rfl rfl,
         h.2.2.2.2 _ 0 _ 9 true false [] rfl rfl rfl⟩

/-- Witness for claim C5 at a concrete state: page of one from a
session with one stored message. -/
theorem get_messages_page_bound_witness :
    ((get_messages sampleSt 0 0 1).1.1).length ≤ 1 ∧
    (get_messages sampleSt 0 0 1).1.2 = 1 := by
  have h := get_messages_page_bound sampleSt 0 0 1 rfl rfl
  exact ⟨h.1, by rw [h.2]; rfl⟩

/-- Witness for claim C6 at a concrete state. -/
theorem listing_orders_witness :
    (∃ l, (get_sessions sampleSt "u1").1 = Except.ok l ∧
       l.Perm (sampleSt.current.sessions.filter (fun s => decide (s.user_id = "u1"))) ∧
       l.Pairwise (fun a b => b.created_at ≤ a.created_at)) ∧
    ((get_messages sampleSt 0 0 50).1.1).Pairwise (fun a b => a.created_at ≤ b.created_at) ∧
    (∀ m ∈ (get_messages sampleSt 0 0 50).1.1, m.session_id = 0) :=
  listing_orders sampleSt "u1" 0 0 50 rfl rfl

/-- Witness for claim C7 at a concrete state and an absent session id. -/
theorem add_message_missing_session_witness :
    (add_message sampleSt 99 { sender := "user", content := "hi", context_metadata := none } 3).1
      = Except.ok none ∧
    (add_message sampleSt 99 { sender := "user", content := "hi", context_metadata := none } 3).2.committed
      = sampleSt.committed ∧
    (add_message sampleSt 99 { sender := "user", content := "hi", context_metadata := none } 3).2.current
      = sampleSt.committed :=
  add_message_missing_session sampleSt 99
    { sender := "user", content := "hi", context_metadata := none } 3 rfl rfl

/-- Witness for claim C8 at a concrete state. -/
theorem toggle_favorite_involution_witness :
    (toggle_favorite sampleSt 0 3).1 =
      Except.ok (some { sampleSession with is_favorite := !sampleSession.is_favorite, updated_at := 3 }) ∧
    (toggle_favorite (toggle_favorite sampleSt 0 3).2 0 4).1 =
      Except.ok (some { sampleSession with updated_at := 4 }) :=
  toggle_favorite_involution sampleSt 0 3 4 sampleSession rfl rfl rfl

/-- Witness for claim C9 at a concrete reachable state. -/
theorem create_session_fresh_id_witness :
    (({ id := 2, user_id := "u2", title := "Second", is_favorite := false, has_documents := false, created_at := 5, updated_at := 5 } : Session).created_at
      = ({ id := 2, user_id := "u2", title := "Second", is_favorite := false, has_documents := false, created_at := 5, updated_at := 5 } : Session).updated_at) ∧
    (∀ t ∈ messagedSt.committed.sessions,
       ¬ t.id = ({ id := 2, user_id := "u2", title := "Second", is_favorite := false, has_documents := false, created_at := 5, updated_at := 5 } : Session).id) ∧
    ((create_session messagedSt { user_id := "u2", title := "Second" } 5).2.committed.sessions.map
        (fun t => t.id)).Nodup :=
  create_session_fresh_id messagedSt reachable_messagedSt { user_id := "u2", title := "Second" } 5
    { id := 2, user_id := "u2", title := "Second", is_favorite := false, has_documents := false, created_at := 5, updated_at := 5 } rfl

/-- Witness for claim C10 at a concrete double-faulting state. -/
theorem write_ops_read_double_fault_witness :
    (update_session { sampleSt with faults := [true, true] } 0 { title := some "Z" } 7).1
      = Except.ok none ∧
    (toggle_favorite { sampleSt with faults := [true, true] } 0 7).1 = Except.ok none ∧
    (delete_session { sampleSt with faults := [true, true] } 0).1 = Except.ok false ∧
    (add_message { sampleSt with faults := [true, true] } 0 { sender := "user", content := "y", context_metadata := none } 7).1 = Except.ok none :=
  write_ops_read_double_fault { sampleSt with faults := [true, true] } 0 { title := some "Z" }
    { sender := "user", content := "y", context_metadata := none } 7 [] rfl

end ChatMessageService
